import Mathlib

/-!
Verification of the lace-lang front end (scanner and parser) against its
natural-language specification.  The definitions below are a shallow
embedding of `src/scanner.rs` and `src/parser.rs`:

* the scanner is modelled as a function over the source's character list,
  consuming from the front (the Rust cursor only moves forward, and after
  every emitted token it sits on the first unconsumed character);
* the parser's mutually recursive methods are modelled as fuel-indexed
  functions over an explicit parser state; the Rust `error()` method
  (print + `exit(0)`) and `unimplemented!` / panics are modelled as the
  `Except` error outcomes `PErr.fatal` and `PErr.panics`;
* Rust `i64` arithmetic (`num * 10 + digit` in `number()`) is modelled as
  two's-complement wrap-around on `Int` via `wrap64`;
* error-message strings keep the source's literal text, except that the
  `format!`-interpolated debug dump of the offending token is elided.
-/

namespace Lace

/-- `Token` from `src/scanner.rs`.  `NumberLiteral`'s `i64` payload is
modelled as `Int` (values produced by the scanner are wrapped into the
`i64` range by `wrap64`). -/
inductive Token where
  | StringLiteral : String → Token
  | NumberLiteral : Int → Token
  | BooleanLiteral : Bool → Token
  | BuiltinFn : String → Token
  | Keyword : String → Token
  | Identifier : String → Token
  | ParenLeft : Token
  | ParenRight : Token
  | CurlyLeft : Token
  | CurlyRight : Token
  | SquareLeft : Token
  | SquareRight : Token
  | OpAdd : Token
  | OpSub : Token
  | OpDiv : Token
  | OpMul : Token
  | OpAssign : Token
  | OpEq : Token
  | OpUneq : Token
  | OpLess : Token
  | OpMore : Token
  | OpLessEq : Token
  | OpMoreEq : Token
  | OpNot : Token
  | OpSemicolon : Token
  | OpColon : Token
  | OpMod : Token
  | BitwiseXor : Token
  | BitwiseAnd : Token
  | BitwiseOr : Token
  | OpPeriod : Token
  | OpNewline : Token
  | OpComma : Token
  | End : Token
  deriving DecidableEq

/-- `KEYWORDS` from `src/scanner.rs`. -/
def KEYWORDS : List String :=
  ["let", "mut", "pub", "fn", "struct", "enum", "from", "import", "or", "and"]

/-- Two's-complement wrap-around onto the `i64` range
`[-2^63, 2^63)`; the two literals are `2^63` and `2^64`. -/
def wrap64 (x : Int) : Int :=
  (x + 9223372036854775808) % 18446744073709551616 - 9223372036854775808

/-- `c.to_digit(10).unwrap()` for a decimal digit character: its code
point minus the code point of `0` (48). -/
def dv (c : Char) : Nat := c.toNat - 48

/-- The character class accepted inside `Scanner::identifier`:
`'A'..='Z' | 'a'..='z' | '_'` (Lean's `Char.isAlpha` is exactly the two
ASCII letter ranges). -/
def isIdentChar (c : Char) : Bool := c.isAlpha || c = '_'

/-- `Scanner::identifier`: consume the maximal run of identifier
characters starting at the cursor, classify it against `KEYWORDS`, and
leave the cursor on the first character after the run. -/
def identTok (cs : List Char) : Token × List Char :=
  (if KEYWORDS.contains (String.mk (cs.takeWhile isIdentChar)) then
    Token.Keyword (String.mk (cs.takeWhile isIdentChar))
  else
    Token.Identifier (String.mk (cs.takeWhile isIdentChar)),
   cs.dropWhile isIdentChar)

/-- The accumulator loop of `Scanner::number`:
`num = num * 10 + digit` on `i64`. -/
def numVal (ds : List Char) : Int :=
  ds.foldl (fun a c => wrap64 (a * 10 + (dv c : Int))) 0

/-- `Scanner::number`: consume the maximal digit run at the cursor and
emit `NumberLiteral` of the accumulated value. -/
def numTok (cs : List Char) : Token × List Char :=
  (Token.NumberLiteral (numVal (cs.takeWhile Char.isDigit)),
   cs.dropWhile Char.isDigit)

/-- The loop of `Scanner::string`, entered after the opening quote.
`esc` is the `escaping` flag; exactly as in the source it is set by a
backslash and never cleared.  Returns the decoded content and the
characters after the terminating quote (or `[]` when input ends first). -/
def stringLit : List Char → Bool → String → String × List Char
  | [], _, acc => (acc, [])
  | '\\' :: rest, _, acc => stringLit rest true acc
  | '"' :: rest, esc, acc =>
    if esc then stringLit rest esc (acc.push '"') else (acc, rest)
  | c :: rest, esc, acc => stringLit rest esc (acc.push c)

/-- The single-character arms of the `match` in `Scanner::scan`;
`none` is the `unimplemented!` catch-all. -/
def charTok : Char → Option Token
  | '.' => some Token.OpPeriod
  | '+' => some Token.OpAdd
  | '-' => some Token.OpSub
  | '*' => some Token.OpMul
  | '/' => some Token.OpDiv
  | '!' => some Token.OpNot
  | '%' => some Token.OpMod
  | ':' => some Token.OpColon
  | ';' => some Token.OpSemicolon
  | '=' => some Token.OpAssign
  | '{' => some Token.CurlyLeft
  | '}' => some Token.CurlyRight
  | '(' => some Token.ParenLeft
  | ')' => some Token.ParenRight
  | '[' => some Token.SquareLeft
  | ']' => some Token.SquareRight
  | '>' => some Token.OpMore
  | '<' => some Token.OpLess
  | '^' => some Token.BitwiseXor
  | '|' => some Token.BitwiseOr
  | '&' => some Token.BitwiseAnd
  | ',' => some Token.OpComma
  | _ => none

/-- `Scanner::scan`, one iteration of the `while` loop per fuel unit.
Every iteration consumes at least one character, so fuel equal to the
source length suffices.  `none` models the `unimplemented!` abort on an
unrecognized character (Lean's `Char.isWhitespace` covers the ASCII
whitespace Rust's `char::is_whitespace` accepts; on non-ASCII Unicode
whitespace this model aborts where the Rust skips, i.e. it is only more
partial, never differently valued). -/
def scanF : Nat → List Char → Option (List Token)
  | _, [] => some []
  | 0, _ :: _ => none
  | n + 1, c :: rest =>
    if c.isWhitespace then
      if c = '\n' then (scanF n rest).map (fun ts => Token.OpNewline :: ts)
      else scanF n rest
    else if c.isAlpha then
      (scanF n (identTok (c :: rest)).2).map (fun ts => (identTok (c :: rest)).1 :: ts)
    else if c.isDigit then
      (scanF n (numTok (c :: rest)).2).map (fun ts => (numTok (c :: rest)).1 :: ts)
    else if c = '"' then
      (scanF n (stringLit rest false "").2).map
        (fun ts => Token.StringLiteral (stringLit rest false "").1 :: ts)
    else
      match charTok c with
      | some t => (scanF n rest).map (fun ts => t :: ts)
      | none => none

/-- Scan a whole source string, as the driver does with
`Scanner::new(source, 0)` followed by `scan()`. -/
def scan (s : String) : Option (List Token) := scanF s.length s.data

/-- `Node` from `src/parser.rs`.  The `Float(f64)` variant is omitted:
floating point is outside this embedding, and no scanner token or parser
path ever constructs it (`number()` only emits integer literals and no
parser branch builds `Node::Float`). -/
inductive Node where
  | String : String → Node
  | Number : Int → Node
  | Boolean : Bool → Node
  | Identifier : String → Node
  | VariableAssignment : String → Node → Bool → Node
  | VariableDestructureAssignment : List (String × Bool) → Node → Bool → Node
  | Binary : Node → Node → Token → Node
  | Unary : Node → Char → Node
  | FunctionCall : String → List Node → Node

/-- Abnormal parser outcomes.  `fatal` is `Parser::error` (diagnostics
print plus `exit(0)`); `panics` is a Rust panic (`unimplemented!`, the
`from_builder` catch-all, or an out-of-bounds `Vec` index); `noFuel` is
the artefact of the fuel-indexed embedding and never corresponds to a
source behaviour. -/
inductive PErr where
  | fatal : String → PErr
  | panics : String → PErr
  | noFuel : PErr
  deriving DecidableEq

/-- The mutable fields of `struct Parser` that the parsing methods read
or write (`source` is used only to format diagnostics and is dropped;
`ast` is threaded separately by `parseF`). -/
structure PState where
  tokens : List Token
  current : Nat
  currentLine : Nat
  warnings : Nat

/-- `Parser::get_current`: `tokens[current]` when in bounds, else the
synthesized `End`. -/
def getCurrent (st : PState) : Token := st.tokens.getD st.current Token.End

/-- `Parser::advance`: increment `current`, bump the line counter when
the newly current token is `OpNewline`, and return the new current token
(`End` past the end of the sequence, exactly as `get_current` does). -/
def advance (st : PState) : Token × PState :=
  let st1 : PState := { st with current := st.current + 1 }
  if getCurrent st1 = Token.OpNewline then
    (getCurrent st1, { st1 with currentLine := st1.currentLine + 1 })
  else
    (getCurrent st1, st1)

/-- `Parser::expect`: advance and require the new current token to be
`token`, else a fatal error. -/
def expectE (st : PState) (token : Token) (msg : String) : Except PErr PState :=
  if (advance st).1 = token then .ok (advance st).2 else .error (.fatal msg)

mutual

/-- `Parser::value`.  Fuel decreases on every nested call. -/
def valueF : Nat → PState → Except PErr (Node × PState)
  | 0, _ => .error .noFuel
  | n + 1, st =>
    match getCurrent st with
    | .BooleanLiteral b => .ok (Node.Boolean b, (advance st).2)
    | .NumberLiteral num => .ok (Node.Number num, (advance st).2)
    | .StringLiteral s => .ok (Node.String s, (advance st).2)
    | .Identifier s =>
      if getCurrent (advance st).2 = Token.ParenLeft then
        (argsF n (advance (advance st).2).2 []).map
          (fun r => (Node.FunctionCall s r.1, r.2))
      else
        .ok (Node.Identifier s, (advance st).2)
    | .OpNot =>
      match getCurrent (advance st).2 with
      | .BooleanLiteral _ | .StringLiteral _ | .NumberLiteral _
      | .Identifier _ | .OpNot | .OpSub =>
        (valueF n (advance st).2).map (fun r => (Node.Unary r.1 '!', r.2))
      | _ => .error (.fatal "SyntaxError: Unexpected token [2]. Expected value")
    | .OpSub =>
      match getCurrent (advance st).2 with
      | .BooleanLiteral _ | .StringLiteral _ | .NumberLiteral _
      | .Identifier _ | .OpNot | .OpSub =>
        (valueF n (advance st).2).map (fun r => (Node.Unary r.1 '-', r.2))
      | _ => .error (.fatal "SyntaxError: Unexpected token [3]. Expected value")
    | .ParenLeft =>
      match expressionF n (advance st).2 with
      | .error e => .error e
      | .ok (e, st2) =>
        if getCurrent st2 = Token.ParenRight then .ok (e, (advance st2).2)
        else .error (.fatal "SyntaxError: Expected `)` after expression.")
    | _ => .error (.fatal "SyntaxError: Unexpected token [4]. Expected value.")

/-- The argument-collecting `loop` inside `Parser::value`'s
function-call branch. -/
def argsF : Nat → PState → List Node → Except PErr (List Node × PState)
  | 0, _, _ => .error .noFuel
  | n + 1, st, args =>
    if getCurrent st = Token.ParenRight then
      .ok (args, (advance st).2)
    else if getCurrent st = Token.OpComma then
      argsF n (advance st).2 args
    else
      match expressionF n st with
      | .error e => .error e
      | .ok (e, st1) => argsF n st1 (args ++ [e])

/-- `Parser::binary_expression`: parse the initial operand with the
named builder, then run the operator loop. -/
def binaryExprF : Nat → String → List Token → PState → Except PErr (Node × PState)
  | 0, _, _, _ => .error .noFuel
  | n + 1, b, operators, st =>
    match fromBuilderF n b st with
    | .error e => .error e
    | .ok (left, st1) => binLoopF n b operators left st1

/-- The `while operators.contains(...)` loop of
`Parser::binary_expression`: the saved operator token is the current
token before the advance, and the freshly parsed right operand is folded
into `left` from the left. -/
def binLoopF : Nat → String → List Token → Node → PState → Except PErr (Node × PState)
  | 0, _, _, _, _ => .error .noFuel
  | n + 1, b, operators, left, st =>
    if operators.contains (getCurrent st) then
      match fromBuilderF n b (advance st).2 with
      | .error e => .error e
      | .ok (right, st2) =>
        binLoopF n b operators (Node.Binary left right (getCurrent st)) st2
    else
      .ok (left, st)

/-- `Parser::from_builder`: dispatch by builder name, panicking on an
unknown name. -/
def fromBuilderF : Nat → String → PState → Except PErr (Node × PState)
  | 0, _, _ => .error .noFuel
  | n + 1, b, st =>
    if b = "unary" then valueF n st
    else if b = "additive" then additiveF n st
    else .error (.panics "Unknown builder")

/-- `Parser::additive_expression`. -/
def additiveF : Nat → PState → Except PErr (Node × PState)
  | 0, _ => .error .noFuel
  | n + 1, st => binaryExprF n "unary" [Token.OpAdd, Token.OpSub] st

/-- `Parser::multiplicative_expression`. -/
def multiplicativeF : Nat → PState → Except PErr (Node × PState)
  | 0, _ => .error .noFuel
  | n + 1, st => binaryExprF n "additive" [Token.OpMod, Token.OpMul, Token.OpDiv] st

/-- `Parser::expression`. -/
def expressionF : Nat → PState → Except PErr (Node × PState)
  | 0, _ => .error .noFuel
  | n + 1, st => multiplicativeF n st

end

/-- The destructuring `loop` inside `Parser::variable_init`:
`mutable` is the whole-binding flag; a property's own `mut` always
records `true` and, when `mutable` is already set, emits the
redundant-`mut` warning (modelled as the counter increment alone,
since `warn` only prints and increments). -/
def destructLoopF : Nat → Bool → List (String × Bool) → PState →
    Except PErr (List (String × Bool) × PState)
  | 0, _, _, _ => .error .noFuel
  | n + 1, mutable, props, st =>
    match
      ((match (advance st).1 with
       | .Identifier name => Except.ok (props ++ [(name, mutable)], (advance st).2)
       | .Keyword kw =>
         if kw = "mut" then
           match (advance (advance st).2).1 with
           | .Identifier name =>
             .ok (props ++ [(name, true)],
               if mutable then
                 { (advance (advance st).2).2 with
                   warnings := (advance (advance st).2).2.warnings + 1 }
               else (advance (advance st).2).2)
           | _ => .error (.fatal "Expected identifier after `mut`.")
         else .error (.fatal "Expected identifier or `mut`.")
       | _ => .error (.fatal "Expeced identifier or `mut`.")) :
        Except PErr (List (String × Bool) × PState)) with
    | .error e => .error e
    | .ok (props2, st2) =>
      if (advance st2).1 = Token.CurlyRight then .ok (props2, (advance st2).2)
      else destructLoopF n mutable props2 (advance st2).2

/-- `Parser::variable_init`.  Note the two behaviours taken verbatim
from the source: the `mut` check reads `tokens[current]` by direct index
(a panic when out of bounds), and the destructuring right-hand side is
read with a second `advance()` after the one that already stepped past
`=`, so the token *after* the identifier position is the one examined. -/
def variableInitF (fuel : Nat) (st : PState) : Except PErr (Node × PState) :=
  let st1 := (advance st).2
  if h : st1.current < st1.tokens.length then
    let mutable := st1.tokens.get ⟨st1.current, h⟩ = Token.Keyword "mut"
    let st2 := if mutable then (advance st1).2 else st1
    match getCurrent st2 with
    | .Identifier name =>
      (match expectE st2 Token.OpAssign "Expected assignment operator" with
       | .error e => .error e
       | .ok st3 =>
         match expressionF fuel (advance st3).2 with
         | .error e => .error e
         | .ok (v, st5) => .ok (Node.VariableAssignment name v mutable, st5))
    | .CurlyLeft =>
      (match destructLoopF fuel mutable [] st2 with
       | .error e => .error e
       | .ok (props, st3) =>
         match expectE st3 Token.OpAssign "Expected assignment operator" with
         | .error e => .error e
         | .ok st4 =>
           match (advance (advance st4).2).1 with
           | .Identifier name =>
             .ok (Node.VariableDestructureAssignment props (Node.Identifier name) mutable,
               (advance (advance st4).2).2)
           | _ => .error (.fatal
               "SyntaxError: Destructured variable right hand side must be a single identifier"))
    | _ => .error (.fatal "SyntaxError: Expected identifier or `\x7b` after `let`")
  else
    .error (.panics "index out of bounds")

/-- `Parser::statement`.  Only the keyword `let` is handled; every other
keyword falls into `unimplemented!`. -/
def statementF : Nat → PState → Except PErr (Node × PState)
  | 0, _ => .error .noFuel
  | n + 1, st =>
    match getCurrent st with
    | .Keyword kw =>
      if kw = "let" then variableInitF n st else .error (.panics "not implemented")
    | .NumberLiteral _ | .StringLiteral _ | .BooleanLiteral _
    | .OpNot | .OpSub | .ParenLeft | .BuiltinFn _ => expressionF n st
    | .OpNewline => statementF n (advance st).2
    | _ => .error (.fatal "SyntaxError: Unexpected token [1].")

/-- `Parser::parse`: repeatedly parse statements until `End`, appending
each node to the AST.  A fatal error (or panic) stops the loop at once
and leaves the AST exactly as it was before the failing statement. -/
def parseF : Nat → PState → List Node → List Node × Option PErr
  | 0, _, acc => (acc, some .noFuel)
  | n + 1, st, acc =>
    if getCurrent st = Token.End then (acc, none)
    else
      match statementF n st with
      | .ok (node, st1) => parseF n st1 (acc ++ [node])
      | .error e => (acc, some e)

/-- Run the parser the way the driver does: `Parser::new(tokens, source)`
followed by `parse()`, observing the final AST and the abnormal outcome
(if any). -/
def parseRun (tokens : List Token) (fuel : Nat) : List Node × Option PErr :=
  parseF fuel ⟨tokens, 0, 0, 0⟩ []

/-- Every successful run of the `binary_expression` operator loop builds
its result as a left fold over the sequence of (operator, right-operand)
steps it took: operators of one precedence level always associate to the
left, and the recorded operator is the exact token seen in the stream. -/
theorem binLoopF_foldl (fuel : Nat) : ∀ b ops left st res st',
    binLoopF fuel b ops left st = .ok (res, st') →
    ∃ ws : List (Token × Node), (∀ p ∈ ws, p.1 ∈ ops) ∧
      res = ws.foldl (fun acc p => Node.Binary acc p.2 p.1) left := by
  induction fuel with
  | zero =>
    intro b ops left st res st' h
    simp [binLoopF] at h
  | succ n ih =>
    intro b ops left st res st' h
    rw [binLoopF] at h
    split at h
    · rename_i hc
      split at h
      · cases h
      · rename_i right st2 _
        obtain ⟨ws, hops, hres⟩ := ih b ops _ st2 res st' h
        refine ⟨(getCurrent st, right) :: ws, ?_, ?_⟩
        · intro p hp
          rcases List.mem_cons.mp hp with hp1 | hp2
          · subst hp1
            exact List.mem_of_elem_eq_true hc
          · exact hops p hp2
        · simpa using hres
    · cases h
      exact ⟨[], by simp, by simp⟩

end Lace

namespace Lace

/-- Claim C1: the grammar binds `%`, `*`, `/` more loosely than `+`, `-`:
`expression` is `multiplicative_expression`, which runs the binary loop
with operators `%`, `*`, `/` over `additive_expression` operands (itself
the binary loop with `+`, `-` over `value` operands); every successful
binary loop combines same-level operators left-associatively, recording
the exact operator token in each `Binary` node; and on the token input
`[NumberLiteral 1, OpAdd, NumberLiteral 2, OpMul, NumberLiteral 3]`,
`expression()` returns
`Binary (Binary (Number 1) (Number 2) OpAdd) (Number 3) OpMul`. -/
theorem c1_precedence_multiplicative_outermost :
    (∀ n st, expressionF (n + 1) st = multiplicativeF n st) ∧
    (∀ n st, multiplicativeF (n + 1) st =
      binaryExprF n "additive" [Token.OpMod, Token.OpMul, Token.OpDiv] st) ∧
    (∀ n st, additiveF (n + 1) st =
      binaryExprF n "unary" [Token.OpAdd, Token.OpSub] st) ∧
    (∀ fuel b ops left st res st',
      binLoopF fuel b ops left st = .ok (res, st') →
      ∃ ws : List (Token × Node), (∀ p ∈ ws, p.1 ∈ ops) ∧
        res = ws.foldl (fun acc p => Node.Binary acc p.2 p.1) left) ∧
    expressionF 100 ⟨[Token.NumberLiteral 1, Token.OpAdd, Token.NumberLiteral 2,
        Token.OpMul, Token.NumberLiteral 3], 0, 0, 0⟩ =
      .ok (Node.Binary (Node.Binary (Node.Number 1) (Node.Number 2) Token.OpAdd)
          (Node.Number 3) Token.OpMul,
        ⟨[Token.NumberLiteral 1, Token.OpAdd, Token.NumberLiteral 2,
          Token.OpMul, Token.NumberLiteral 3], 5, 0, 0⟩) :=
  ⟨fun _ _ => rfl, fun _ _ => rfl, fun _ _ => rfl, binLoopF_foldl, rfl⟩

/-- Claim C1 witness: the binary-loop left-fold characterization applied
to a concrete (trivial) run of the multiplicative loop. -/
theorem c1_witness : ∃ ws : List (Token × Node),
    (∀ p ∈ ws, p.1 ∈ [Token.OpMod, Token.OpMul, Token.OpDiv]) ∧
    Node.Number 7 = ws.foldl (fun acc p => Node.Binary acc p.2 p.1) (Node.Number 7) :=
  c1_precedence_multiplicative_outermost.2.2.2.1 1 "additive"
    [Token.OpMod, Token.OpMul, Token.OpDiv] (Node.Number 7) ⟨[], 0, 0, 0⟩
    (Node.Number 7) ⟨[], 0, 0, 0⟩ rfl

/-- Claim C2: scanning `let x = 1 + 2` yields exactly the six tokens
`[Keyword "let", Identifier "x", OpAssign, NumberLiteral 1, OpAdd,
NumberLiteral 2]`, and parsing that sequence yields the single node
`VariableAssignment "x" (Binary (Number 1) (Number 2) OpAdd) false`
with no error. -/
theorem c2_let_binding_roundtrip :
    scan "let x = 1 + 2" =
      some [Token.Keyword "let", Token.Identifier "x", Token.OpAssign,
        Token.NumberLiteral 1, Token.OpAdd, Token.NumberLiteral 2] ∧
    parseRun [Token.Keyword "let", Token.Identifier "x", Token.OpAssign,
        Token.NumberLiteral 1, Token.OpAdd, Token.NumberLiteral 2] 100 =
      ([Node.VariableAssignment "x"
          (Node.Binary (Node.Number 1) (Node.Number 2) Token.OpAdd) false], none) :=
  ⟨rfl, rfl⟩

/-- Claim C3 (code bug): on the token sequence of `let mut { a, mut b } = c`
the destructuring loop itself does succeed with properties
`[("a", true), ("b", true)]` and one warning, but `variable_init` then
advances twice after the `=`, examining the token after `c` (here `End`),
so the whole parse aborts with the fatal single-identifier error and an
empty AST instead of producing the `VariableDestructureAssignment`. -/
theorem c3_destructure_rhs_double_advance :
    scan "let mut \x7b a, mut b \x7d = c" =
      some [Token.Keyword "let", Token.Keyword "mut", Token.CurlyLeft,
        Token.Identifier "a", Token.OpComma, Token.Keyword "mut", Token.Identifier "b",
        Token.CurlyRight, Token.OpAssign, Token.Identifier "c"] ∧
    destructLoopF 100 true []
        ⟨[Token.Keyword "let", Token.Keyword "mut", Token.CurlyLeft,
          Token.Identifier "a", Token.OpComma, Token.Keyword "mut", Token.Identifier "b",
          Token.CurlyRight, Token.OpAssign, Token.Identifier "c"], 2, 0, 0⟩ =
      .ok ([("a", true), ("b", true)],
        ⟨[Token.Keyword "let", Token.Keyword "mut", Token.CurlyLeft,
          Token.Identifier "a", Token.OpComma, Token.Keyword "mut", Token.Identifier "b",
          Token.CurlyRight, Token.OpAssign, Token.Identifier "c"], 7, 0, 1⟩) ∧
    parseRun [Token.Keyword "let", Token.Keyword "mut", Token.CurlyLeft,
        Token.Identifier "a", Token.OpComma, Token.Keyword "mut", Token.Identifier "b",
        Token.CurlyRight, Token.OpAssign, Token.Identifier "c"] 100 =
      ([], some (PErr.fatal
        "SyntaxError: Destructured variable right hand side must be a single identifier")) :=
  ⟨rfl, rfl, rfl⟩

/-- Claim C4 (code bug): scanning the six-character source `"a\"b"` does
NOT yield the three-character content `a"b`: because the `escaping` flag
is set by the backslash and never cleared, the closing quote is also
treated as escaped, the literal's content becomes the four characters
`a"b"`, and the string loop runs to the end of the input (remainder `[]`)
instead of stopping at the final quote. -/
theorem c4_string_escape_flag_sticky :
    scan "\"a\\\"b\"" = some [Token.StringLiteral "a\"b\""] ∧
    stringLit ['a', '\\', '"', 'b', '"'] false "" = ("a\"b\"", []) :=
  ⟨rfl, rfl⟩

/-- Claim C5 counterexample: the token sequence of `foo(1, 2)` at
statement position does not parse: `statement()` has no `Identifier`
arm, so `parse()` aborts with the fatal unexpected-token error and an
empty AST. -/
theorem c5_counterexample :
    parseRun [Token.Identifier "foo", Token.ParenLeft, Token.NumberLiteral 1,
        Token.OpComma, Token.NumberLiteral 2, Token.ParenRight] 100 =
      ([], some (PErr.fatal "SyntaxError: Unexpected token [1].")) :=
  rfl

/-- Claim C5 (amended): `value()` on the token sequence of `foo(1, 2)`
yields `FunctionCall "foo" [Number 1, Number 2]` (this is how the call
is reached when the tokens occur as an expression operand, e.g.
parenthesized, where the full parse succeeds); only the bare
statement-position form is a fatal error. -/
theorem c5_function_call_as_value :
    valueF 100 ⟨[Token.Identifier "foo", Token.ParenLeft, Token.NumberLiteral 1,
        Token.OpComma, Token.NumberLiteral 2, Token.ParenRight], 0, 0, 0⟩ =
      .ok (Node.FunctionCall "foo" [Node.Number 1, Node.Number 2],
        ⟨[Token.Identifier "foo", Token.ParenLeft, Token.NumberLiteral 1,
          Token.OpComma, Token.NumberLiteral 2, Token.ParenRight], 6, 0, 0⟩) ∧
    parseRun [Token.ParenLeft, Token.Identifier "foo", Token.ParenLeft,
        Token.NumberLiteral 1, Token.OpComma, Token.NumberLiteral 2,
        Token.ParenRight, Token.ParenRight] 100 =
      ([Node.FunctionCall "foo" [Node.Number 1, Node.Number 2]], none) ∧
    scan "foo(1, 2)" =
      some [Token.Identifier "foo", Token.ParenLeft, Token.NumberLiteral 1,
        Token.OpComma, Token.NumberLiteral 2, Token.ParenRight] :=
  ⟨rfl, rfl, rfl⟩

/-- Claim C6: a fatal statement error is atomic for the AST: whenever
`statement()` fails, `parse()` returns with the AST exactly as it was
before the failing statement began and attempts no further statements;
in particular the token sequence of `let x = 1 +` parses to an empty AST
with the fatal expected-value diagnostic. -/
theorem c6_fatal_error_atomicity :
    (∀ n st acc e, getCurrent st ≠ Token.End → statementF n st = .error e →
      parseF (n + 1) st acc = (acc, some e)) ∧
    parseRun [Token.Keyword "let", Token.Identifier "x", Token.OpAssign,
        Token.NumberLiteral 1, Token.OpAdd] 100 =
      ([], some (PErr.fatal "SyntaxError: Unexpected token [4]. Expected value.")) ∧
    scan "let x = 1 +" =
      some [Token.Keyword "let", Token.Identifier "x", Token.OpAssign,
        Token.NumberLiteral 1, Token.OpAdd] := by
  refine ⟨?_, rfl, rfl⟩
  intro n st acc e h1 h2
  simp only [parseF, if_neg h1, h2]

/-- Claim C6 witness: the atomicity property applied to the concrete
mid-expression input `let x = 1 +`. -/
theorem c6_witness :
    parseF 100 ⟨[Token.Keyword "let", Token.Identifier "x", Token.OpAssign,
        Token.NumberLiteral 1, Token.OpAdd], 0, 0, 0⟩ [] =
      ([], some (PErr.fatal "SyntaxError: Unexpected token [4]. Expected value.")) :=
  c6_fatal_error_atomicity.1 99
    ⟨[Token.Keyword "let", Token.Identifier "x", Token.OpAssign,
      Token.NumberLiteral 1, Token.OpAdd], 0, 0, 0⟩ []
    (PErr.fatal "SyntaxError: Unexpected token [4]. Expected value.")
    (by decide) rfl

/-- Claim C7 counterexample: a token sequence consisting only of
`OpNewline` does NOT parse to an empty AST without error: `statement()`
consumes the newline, re-attempts, meets the synthesized `End`, and
reports a fatal unexpected-token diagnostic. -/
theorem c7_counterexample :
    parseRun [Token.OpNewline] 100 =
      ([], some (PErr.fatal "SyntaxError: Unexpected token [1].")) :=
  rfl

/-- Claim C7 (amended): `OpNewline` at statement position is consumed
and the statement re-attempted, so newlines separate statements
(`1\n2` parses to two nodes); but when the re-attempt reaches the
synthesized `End` — i.e. on trailing newlines — `statement()` reports a
fatal unexpected-token error: `1\n` produces the node `Number 1` and
then aborts fatally, rather than terminating normally. -/
theorem c7_newline_separator_amended :
    (∀ n st, getCurrent st = Token.OpNewline →
      statementF (n + 1) st = statementF n (advance st).2) ∧
    parseRun [Token.NumberLiteral 1, Token.OpNewline, Token.NumberLiteral 2] 100 =
      ([Node.Number 1, Node.Number 2], none) ∧
    parseRun [Token.NumberLiteral 1] 100 = ([Node.Number 1], none) ∧
    parseRun [Token.NumberLiteral 1, Token.OpNewline] 100 =
      ([Node.Number 1], some (PErr.fatal "SyntaxError: Unexpected token [1].")) := by
  refine ⟨?_, rfl, rfl, rfl⟩
  intro n st h
  simp only [statementF, h]

/-- Claim C7 witness: the newline-consumption equation applied to the
concrete newline-only token sequence. -/
theorem c7_witness :
    statementF 100 ⟨[Token.OpNewline], 0, 0, 0⟩ =
      statementF 99 (advance ⟨[Token.OpNewline], 0, 0, 0⟩).2 :=
  c7_newline_separator_amended.1 99 ⟨[Token.OpNewline], 0, 0, 0⟩ rfl

/-- Claim C8 counterexample: `statement()` on `Keyword "pub"` (followed
by a well-formed `let` binding) does not parse a publicly-visible
assignment and does not report through the diagnostics reporter: it hits
`unimplemented!` and panics, leaving an empty AST. -/
theorem c8_counterexample :
    parseRun [Token.Keyword "pub", Token.Keyword "let", Token.Identifier "x",
        Token.OpAssign, Token.NumberLiteral 1] 100 =
      ([], some (PErr.panics "not implemented")) :=
  rfl

/-- Claim C8 (amended): `statement()` handles only the keyword `let`
(dispatching to `variable_init`); every other keyword — `pub` included —
falls into `unimplemented!` and panics instead of reaching the
diagnostics reporter, and no visibility-tagged node exists. -/
theorem c8_keyword_dispatch_amended :
    (∀ n st kw, getCurrent st = Token.Keyword kw → kw ≠ "let" →
      statementF (n + 1) st = .error (.panics "not implemented")) ∧
    (∀ n st, getCurrent st = Token.Keyword "let" →
      statementF (n + 1) st = variableInitF n st) := by
  constructor
  · intro n st kw h hkw
    simp only [statementF, h, if_neg hkw]
  · intro n st h
    simp [statementF, h]

/-- Claim C8 witness: the keyword dispatch applied to a concrete state
whose current token is `Keyword "pub"`. -/
theorem c8_witness :
    statementF 100 ⟨[Token.Keyword "pub"], 0, 0, 0⟩ =
      .error (.panics "not implemented") :=
  c8_keyword_dispatch_amended.1 99 ⟨[Token.Keyword "pub"], 0, 0, 0⟩ "pub" rfl (by decide)

/-- The mathematical value denoted by a most-significant-first decimal
digit string: `Nat.ofDigits` over the reversed digit list. -/
def decDenote (ds : List Char) : Nat := Nat.ofDigits 10 ((ds.map dv).reverse)

/-- The digit-accumulation loop of `number()` replayed on `Nat`
(no wrap-around). -/
def natFold (ds : List Char) (a : Nat) : Nat := ds.foldl (fun x c => x * 10 + dv c) a

theorem takeWhile_append_of_all {p : Char → Bool} :
    ∀ (ds rest : List Char), (∀ c ∈ ds, p c = true) →
      (ds ++ rest).takeWhile p = ds ++ rest.takeWhile p := by
  intro ds
  induction ds with
  | nil => intro rest _; simp
  | cons c cs ih =>
    intro rest h
    have hc : p c = true := h c (List.mem_cons_self c cs)
    simp only [List.cons_append, List.takeWhile_cons, hc, if_true]
    rw [ih rest (fun x hx => h x (List.mem_cons_of_mem c hx))]

theorem dropWhile_append_of_all {p : Char → Bool} :
    ∀ (ds rest : List Char), (∀ c ∈ ds, p c = true) →
      (ds ++ rest).dropWhile p = rest.dropWhile p := by
  intro ds
  induction ds with
  | nil => intro rest _; simp
  | cons c cs ih =>
    intro rest h
    have hc : p c = true := h c (List.mem_cons_self c cs)
    simp only [List.cons_append, List.dropWhile_cons, hc, if_true]
    exact ih rest (fun x hx => h x (List.mem_cons_of_mem c hx))

theorem takeWhile_eq_nil_of_head {p : Char → Bool} {rest : List Char}
    (h : ∀ c ∈ rest.head?, p c = false) : rest.takeWhile p = [] := by
  cases rest with
  | nil => rfl
  | cons c cs =>
    have hc : p c = false := h c rfl
    simp [List.takeWhile_cons, hc]

theorem dropWhile_eq_self_of_head {p : Char → Bool} {rest : List Char}
    (h : ∀ c ∈ rest.head?, p c = false) : rest.dropWhile p = rest := by
  cases rest with
  | nil => rfl
  | cons c cs =>
    have hc : p c = false := h c rfl
    simp [List.dropWhile_cons, hc]

theorem natFold_le : ∀ (ds : List Char) (a : Nat), a ≤ natFold ds a := by
  intro ds
  induction ds with
  | nil => intro a; exact Nat.le_refl a
  | cons c cs ih =>
    intro a
    have h1 : a ≤ a * 10 + dv c := by omega
    exact h1.trans (ih (a * 10 + dv c))

theorem natFold_eq_denote : ∀ (ds : List Char) (a : Nat),
    natFold ds a = a * 10 ^ ds.length + decDenote ds := by
  intro ds
  induction ds with
  | nil => intro a; simp [natFold, decDenote, Nat.ofDigits]
  | cons c cs ih =>
    intro a
    have h1 : natFold (c :: cs) a = natFold cs (a * 10 + dv c) := by
      simp [natFold]
    have h2 : decDenote (c :: cs) = decDenote cs + 10 ^ cs.length * dv c := by
      simp only [decDenote, List.map_cons, List.reverse_cons, Nat.ofDigits_append,
        Nat.ofDigits_singleton, List.length_reverse, List.length_map]
    rw [h1, ih (a * 10 + dv c), h2]
    simp only [List.length_cons, pow_succ]
    ring

theorem wrap64_id {x : Int} (h0 : 0 ≤ x) (h1 : x < 9223372036854775808) :
    wrap64 x = x := by
  unfold wrap64
  have h2 : (x + 9223372036854775808) % 18446744073709551616 =
      x + 9223372036854775808 :=
    Int.emod_eq_of_lt (by omega) (by omega)
  omega

theorem intFold_eq_natFold : ∀ (ds : List Char) (a : Nat),
    natFold ds a < 9223372036854775808 →
    ds.foldl (fun x c => wrap64 (x * 10 + (dv c : Int))) (a : Int) =
      (natFold ds a : Int) := by
  intro ds
  induction ds with
  | nil => intro a _; simp [natFold]
  | cons c cs ih =>
    intro a h
    have hfold : natFold (c :: cs) a = natFold cs (a * 10 + dv c) := by
      simp [natFold]
    have hb : (a * 10 + dv c : Nat) < 9223372036854775808 :=
      Nat.lt_of_le_of_lt (natFold_le cs (a * 10 + dv c)) (hfold ▸ h)
    have hstep : wrap64 ((a : Int) * 10 + (dv c : Int)) = ((a * 10 + dv c : Nat) : Int) := by
      have hcast : ((a * 10 + dv c : Nat) : Int) = (a : Int) * 10 + (dv c : Int) := by
        push_cast
        ring
      rw [← hcast]
      exact wrap64_id (by positivity) (by exact_mod_cast hb)
    calc (c :: cs).foldl (fun x c => wrap64 (x * 10 + (dv c : Int))) (a : Int)
        = cs.foldl (fun x c => wrap64 (x * 10 + (dv c : Int)))
          (wrap64 ((a : Int) * 10 + (dv c : Int))) := by simp
      _ = cs.foldl (fun x c => wrap64 (x * 10 + (dv c : Int)))
          ((a * 10 + dv c : Nat) : Int) := by rw [hstep]
      _ = (natFold cs (a * 10 + dv c) : Int) := ih (a * 10 + dv c) (hfold ▸ h)
      _ = (natFold (c :: cs) a : Int) := by rw [hfold]

/-- Claim C9: for every nonempty decimal digit string whose denoted
value fits in a signed 64-bit integer, `number()` returns a
`NumberLiteral` holding exactly the denoted integer, and the scanner
continues with exactly the characters after the digit run. -/
theorem c9_number_roundtrip (ds rest : List Char) (_hne : ds ≠ [])
    (hdig : ∀ c ∈ ds, c.isDigit = true)
    (hrest : ∀ c ∈ rest.head?, c.isDigit = false)
    (hbound : decDenote ds < 9223372036854775808) :
    numTok (ds ++ rest) = (Token.NumberLiteral ((decDenote ds : Nat) : Int), rest) := by
  have htake : (ds ++ rest).takeWhile Char.isDigit = ds := by
    rw [takeWhile_append_of_all ds rest hdig, takeWhile_eq_nil_of_head hrest,
      List.append_nil]
  have hdrop : (ds ++ rest).dropWhile Char.isDigit = rest := by
    rw [dropWhile_append_of_all ds rest hdig, dropWhile_eq_self_of_head hrest]
  have hfold : natFold ds 0 = decDenote ds := by
    rw [natFold_eq_denote ds 0]
    simp
  have hval : numVal ds = ((decDenote ds : Nat) : Int) := by
    have h0 : natFold ds 0 < 9223372036854775808 := by rw [hfold]; exact hbound
    have := intFold_eq_natFold ds 0 h0
    simpa [numVal, hfold] using this
  simp only [numTok, htake, hdrop, hval]

/-- Claim C9 witness: the round-trip applied to the concrete digit run
`42` followed by `+`. -/
theorem c9_witness :
    numTok ['4', '2', '+'] = (Token.NumberLiteral ((decDenote ['4', '2'] : Nat) : Int), ['+']) ∧
    ((decDenote ['4', '2'] : Nat) : Int) = 42 :=
  ⟨c9_number_roundtrip ['4', '2'] ['+'] (by decide) (by decide)
    (by intro c hc; rw [Option.mem_def] at hc; cases hc; decide) (by decide),
   by decide⟩

/-- The token variants the scanner can never emit: the literal/marker
variants with no producing scan arm, the two-character comparison
operators, and the `End` sentinel (which only the parser synthesizes). -/
def badToken : Token → Bool
  | .BooleanLiteral _ => true
  | .BuiltinFn _ => true
  | .OpEq => true
  | .OpUneq => true
  | .OpLessEq => true
  | .OpMoreEq => true
  | .End => true
  | _ => false

theorem badToken_identTok (cs : List Char) : badToken (identTok cs).1 = false := by
  simp only [identTok]
  split <;> rfl

theorem badToken_charTok {c : Char} {t : Token} (h : charTok c = some t) :
    badToken t = false := by
  unfold charTok at h
  split at h <;> cases h <;> rfl

/-- Claim C10: every token sequence the scanner produces on a normal
run is free of `BooleanLiteral`, `BuiltinFn`, `OpEq`, `OpUneq`,
`OpLessEq`, `OpMoreEq` and `End`; in particular `true` and `false` scan
as identifiers (they are not keywords) and `==`, `!=`, `<=`, `>=` scan
as two single-character tokens each, so the parser branches matching
`BooleanLiteral` or `BuiltinFn` are unreachable from scanned source. -/
theorem c10_scanner_never_emits :
    (∀ fuel cs toks, scanF fuel cs = some toks → ∀ t ∈ toks, badToken t = false) ∧
    scan "true" = some [Token.Identifier "true"] ∧
    scan "false" = some [Token.Identifier "false"] ∧
    scan "==" = some [Token.OpAssign, Token.OpAssign] ∧
    scan "!=" = some [Token.OpNot, Token.OpAssign] ∧
    scan "<=" = some [Token.OpLess, Token.OpAssign] ∧
    scan ">=" = some [Token.OpMore, Token.OpAssign] := by
  refine ⟨?_, rfl, rfl, rfl, rfl, rfl, rfl⟩
  intro fuel
  induction fuel with
  | zero =>
    intro cs toks h t ht
    cases cs with
    | nil =>
      rw [scanF] at h
      cases h
      cases ht
    | cons c rest =>
      rw [scanF] at h
      cases h
  | succ n ih =>
    intro cs toks h t ht
    cases cs with
    | nil =>
      rw [scanF] at h
      cases h
      cases ht
    | cons c rest =>
      rw [scanF] at h
      split at h
      · -- whitespace
        split at h
        · -- newline: OpNewline is prepended
          obtain ⟨ts, hts, htoks⟩ := Option.map_eq_some'.mp h
          subst htoks
          rcases List.mem_cons.mp ht with rfl | hmem
          · rfl
          · exact ih rest ts hts t hmem
        · exact ih rest toks h t ht
      · split at h
        · -- identifier / keyword
          obtain ⟨ts, hts, htoks⟩ := Option.map_eq_some'.mp h
          subst htoks
          rcases List.mem_cons.mp ht with rfl | hmem
          · exact badToken_identTok (c :: rest)
          · exact ih (identTok (c :: rest)).2 ts hts t hmem
        · split at h
          · -- number
            obtain ⟨ts, hts, htoks⟩ := Option.map_eq_some'.mp h
            subst htoks
            rcases List.mem_cons.mp ht with rfl | hmem
            · rfl
            · exact ih (numTok (c :: rest)).2 ts hts t hmem
          · split at h
            · -- string literal
              obtain ⟨ts, hts, htoks⟩ := Option.map_eq_some'.mp h
              subst htoks
              rcases List.mem_cons.mp ht with rfl | hmem
              · rfl
              · exact ih (stringLit rest false "").2 ts hts t hmem
            · -- single-character tokens
              split at h
              · rename_i t1 hct
                obtain ⟨ts, hts, htoks⟩ := Option.map_eq_some'.mp h
                subst htoks
                rcases List.mem_cons.mp ht with rfl | hmem
                · exact badToken_charTok hct
                · exact ih rest ts hts t hmem
              · cases h

/-- Claim C10 witness: the invariant applied to the concrete scan of
`true`, whose only token is `Identifier "true"`. -/
theorem c10_witness : badToken (Token.Identifier "true") = false :=
  c10_scanner_never_emits.1 4 ['t', 'r', 'u', 'e'] [Token.Identifier "true"] rfl
    (Token.Identifier "true") (List.mem_singleton.mpr rfl)

end Lace
